import Mathlib

/-!
Verification development for the structured-argumentation-tool core
(argument entity, argument graph, dialectical engine, evaluator).  The
synthesizer source is not embedded: its class body binds the reserved
name arguments as a method parameter, which inside a class (strict-mode
code) is an early SyntaxError, so that module has no run-time semantics
to embed.  The JavaScript source is shallowly embedded: JS numbers
are modelled as rationals, with the non-number value NaN modelled
explicitly as the `none` case of an `Option` (JS float rounding is not
modelled; every formula under study is exact decimal arithmetic).
Thrown exceptions are modelled with `Except`/paired error options, and
mutation of a graph object is modelled by explicit state passing, so
that a call that throws after mutating returns the partially mutated
state together with the error.  Wall-clock timestamp fields
(createdAt, lastModified, history timestamps) are omitted: they carry
no logical content.  Regular-expression tests from the source are
implemented as character-list matchers over the same patterns; the
regex whitespace class is modelled by ASCII whitespace.
-/

/-- JS number that may be NaN: `none` is NaN, `some q` a (rational) number. -/
def JSVal : Type := Option ℚ

instance : DecidableEq JSVal := inferInstanceAs (DecidableEq (Option ℚ))

instance : Repr JSVal := inferInstanceAs (Repr (Option ℚ))

instance {ε α : Type} [DecidableEq ε] [DecidableEq α] : DecidableEq (Except ε α) :=
  fun x y =>
    match x, y with
    | .ok a, .ok b =>
      if h : a = b then .isTrue (by rw [h])
      else .isFalse (by intro hc; cases hc; exact h rfl)
    | .error a, .error b =>
      if h : a = b then .isTrue (by rw [h])
      else .isFalse (by intro hc; cases hc; exact h rfl)
    | .ok _, .error _ => .isFalse (by intro hc; cases hc)
    | .error _, .ok _ => .isFalse (by intro hc; cases hc)

/-- Lift a rational to a JS number. -/
def jnum (q : ℚ) : JSVal := some q

/-! Rational arithmetic is performed through `Rat.divInt` cross-multiplication
wrappers: they are definitionally equal to the field operations of `ℚ`
(lemmas below) while remaining evaluable by the kernel, so that witnesses
and counterexamples can be checked on concrete inputs by `decide`. -/

/-- Kernel-evaluable rational addition. -/
def qadd (a b : ℚ) : ℚ := Rat.divInt (a.num * b.den + b.num * a.den) (a.den * b.den)

/-- Kernel-evaluable rational subtraction. -/
def qsub (a b : ℚ) : ℚ := Rat.divInt (a.num * b.den - b.num * a.den) (a.den * b.den)

/-- Kernel-evaluable rational multiplication. -/
def qmul (a b : ℚ) : ℚ := Rat.divInt (a.num * b.num) (a.den * b.den)

/-- Kernel-evaluable rational division (zero denominator gives 0, as `/`). -/
def qdiv (a b : ℚ) : ℚ := Rat.divInt (a.num * b.den) (a.den * b.num)

/-- JS addition: NaN propagates. -/
def jadd : JSVal → JSVal → JSVal
  | some a, some b => some (qadd a b)
  | _, _ => none

/-- JS subtraction: NaN propagates. -/
def jsub : JSVal → JSVal → JSVal
  | some a, some b => some (qsub a b)
  | _, _ => none

/-- JS multiplication: NaN propagates. -/
def jmul : JSVal → JSVal → JSVal
  | some a, some b => some (qmul a b)
  | _, _ => none

/-- JS division.  A zero denominator yields `none`: in every division the
source performs with a zero denominator the numerator is also zero, and
JS `0/0` is NaN (the infinite values never arise). -/
def jdiv : JSVal → JSVal → JSVal
  | some a, some b => if b = 0 then none else some (qdiv a b)
  | _, _ => none

/-- JS Math.min: NaN propagates. -/
def jmin : JSVal → JSVal → JSVal
  | some a, some b => some (min a b)
  | _, _ => none

/-- JS Math.max: NaN propagates. -/
def jmax : JSVal → JSVal → JSVal
  | some a, some b => some (max a b)
  | _, _ => none

/-- JS Math.abs: NaN propagates. -/
def jabs : JSVal → JSVal
  | some a => some |a|
  | none => none

/-- JS `v > q` comparison: false when `v` is NaN. -/
def jgtB (v : JSVal) (q : ℚ) : Bool :=
  match v with
  | some x => decide (q < x)
  | none => false

/-- JS `v < q` comparison: false when `v` is NaN. -/
def jltB (v : JSVal) (q : ℚ) : Bool :=
  match v with
  | some x => decide (x < q)
  | none => false

/-- JS strict-greater comparison of two possibly-NaN values (false on NaN). -/
def jgtVB (a b : JSVal) : Bool :=
  match a, b with
  | some x, some y => decide (y < x)
  | _, _ => false

/-! ## Text utilities shared by the evaluator and the engine -/

/-- A JS `\w` word character (ASCII letter, digit or underscore). -/
def isWordChar (c : Char) : Bool := c.isAlphanum || c = '_'

/-- ASCII whitespace, modelling the regex `\s` class. -/
def isWS (c : Char) : Bool := c = ' ' || c = '\t' || c = '\n' || c = '\r'

/-- Maximal runs of word characters of a character list, in order.
`text.split(/\W+/)` produces these runs, plus empty strings that every
caller in the source immediately discards by a length filter. -/
def groupWords : List Char → List (List Char)
  | [] => []
  | c :: cs =>
    let rest := groupWords cs
    if isWordChar c then
      match cs with
      | c2 :: _ =>
        if isWordChar c2 then
          match rest with
          | g :: gs => (c :: g) :: gs
          | [] => [[c]]
        else [c] :: rest
      | [] => [[c]]
    else rest

/-- `text.toLowerCase().split(/\W+/)` with empty fragments dropped. -/
def wordsOf (s : String) : List String :=
  (groupWords (s.toList.map Char.toLower)).map List.asString

/-- First-occurrence deduplication, as a JS `Set` or object-key table
preserves insertion order. -/
def dedupFirstAux (seen : List String) : List String → List String
  | [] => []
  | x :: xs => if x ∈ seen then dedupFirstAux seen xs else x :: dedupFirstAux (x :: seen) xs

/-- First-occurrence deduplication of a list of strings. -/
def dedupFirst (l : List String) : List String := dedupFirstAux [] l

/-- Stop-word list of Evaluator.extractKeywords. -/
def stopWordsKw : List String :=
  ["the", "be", "to", "of", "and", "a", "in", "that", "is", "was", "for", "it"]

/-- Evaluator.extractKeywords: lowercase words, length strictly greater
than 2, not stop words. -/
def extractKeywords (text : String) : List String :=
  (wordsOf text).filter (fun w => w.length > 2 && !stopWordsKw.contains w)

/-- Stop-word list of DialecticalEngine.extractConcepts (it lacks "it"). -/
def stopWordsConcept : List String :=
  ["the", "be", "to", "of", "and", "a", "in", "that", "is", "was", "for"]

/-- DialecticalEngine.extractConcepts: words of the joined premises,
length strictly greater than 3, not stop words, deduplicated. -/
def extractConcepts (premises : List String) : List String :=
  dedupFirst ((wordsOf (String.intercalate " " premises)).filter
    (fun w => w.length > 3 && !stopWordsConcept.contains w))

/-- DialecticalEngine.findSharedConcepts. -/
def findSharedConcepts (premises1 premises2 : List String) : List String :=
  (extractConcepts premises1).filter (fun c => (extractConcepts premises2).contains c)

/-- Boolean prefix test on character lists. -/
def isPrefixList : List Char → List Char → Bool
  | [], _ => true
  | _ :: _, [] => false
  | a :: as, b :: bs => a = b && isPrefixList as bs

/-- Substring occurrence test (JS String.includes) on raw characters. -/
def strContains (hay needle : String) : Bool :=
  hay.toList.tails.any (fun s => isPrefixList needle.toList s)

/-! ### Character-level matchers for the regular expressions of the source.
All patterns carry the `i` flag, modelled by lowercasing the text character
during literal comparison. -/

/-- Case-insensitive literal match; `pat` is given lowercase.  Returns the
remainder of the text after the literal. -/
def litCI : List Char → List Char → Option (List Char)
  | [], t => some t
  | _ :: _, [] => none
  | p :: ps, c :: cs => if p = c.toLower then litCI ps cs else none

/-- First matching alternative of a list of lowercase literals. -/
def matchAlts (alts : List String) (t : List Char) : Option (List Char) :=
  match alts with
  | [] => none
  | a :: as =>
    match litCI a.toList t with
    | some r => some r
    | none => matchAlts as t

/-- `\s+`: one or more whitespace characters (maximal munch; every use in
the source is followed by a non-whitespace literal). -/
def wsPlus : List Char → Option (List Char)
  | [] => none
  | c :: cs => if isWS c then some (cs.dropWhile isWS) else none

/-- A `\b` boundary to the right of a just-matched word: end of text or a
non-word character. -/
def boundaryAfter : List Char → Bool
  | [] => true
  | c :: _ => !isWordChar c

/-- Every suffix of the text paired with the character immediately before
it; a space sentinel stands for the start of the text, so a `\b` holds at
a suffix exactly when its paired character is not a word character. -/
def sufPrev (prev : Char) : List Char → List (Char × List Char)
  | [] => []
  | c :: cs => (prev, c :: cs) :: sufPrev c cs

/-- Scan: does `f` match at some position preceded by a word boundary. -/
def scanBoundary (t : List Char) (f : List Char → Bool) : Bool :=
  (sufPrev ' ' t).any (fun pc => !isWordChar pc.1 && f pc.2)

/-- A single word alternative with a closing `\b`. -/
def simpleWordAt (w : String) (s : List Char) : Bool :=
  match litCI w.toList s with
  | some r => boundaryAfter r
  | none => false

/-- `people\s+who\s+(believe|think|say)\b` at this position. -/
def adHominemAt (t : List Char) : Bool :=
  (do
    let r1 ← litCI "people".toList t
    let r2 ← wsPlus r1
    let r3 ← litCI "who".toList r2
    let r4 ← wsPlus r3
    let r5 ← matchAlts ["believe", "think", "say"] r4
    pure (boundaryAfter r5)).getD false

/-- `(nobody|no one|everyone)\s+(thinks|believes|says)\b` at this position. -/
def strawManAt (t : List Char) : Bool :=
  (do
    let r1 ← matchAlts ["nobody", "no one", "everyone"] t
    let r2 ← wsPlus r1
    let r3 ← matchAlts ["thinks", "believes", "says"] r2
    pure (boundaryAfter r3)).getD false

/-- `\bor\b` occurring anywhere in the remainder (the `.*` of the false
dichotomy pattern); the position before the remainder is whitespace, so
the initial boundary holds there as well. -/
def hasWordOr (r : List Char) : Bool :=
  (sufPrev ' ' r).any (fun pc => !isWordChar pc.1 && simpleWordAt "or" pc.2)

/-- `(either|only)\s+.*\bor\b` at this position. -/
def falseDichotomyAt (t : List Char) : Bool :=
  (do
    let r1 ← matchAlts ["either", "only"] t
    let r2 ← wsPlus r1
    pure (hasWordOr r2)).getD false

/-- Evaluator.containsData: `\b\d+(\.\d+)?(%|\s*(percent|percentage|data|study|research|evidence))`
at this position (the digit run starts at a word boundary). -/
def containsDataAt (s : List Char) : Bool :=
  match s with
  | c :: _ =>
    if c.isDigit then
      let r := s.dropWhile Char.isDigit
      let r2 :=
        match r with
        | '.' :: d :: ds => if d.isDigit then (d :: ds).dropWhile Char.isDigit else r
        | _ => r
      match r2 with
      | '%' :: _ => true
      | _ =>
        (matchAlts ["percent", "percentage", "data", "study", "research", "evidence"]
          (r2.dropWhile isWS)).isSome
    else false
  | [] => false

/-- Evaluator.containsData over a text. -/
def containsData (text : String) : Bool :=
  scanBoundary text.toList containsDataAt

/-- `\(.*\d{4}.*\)` at a position starting with an opening parenthesis. -/
def parenYearAt (s : List Char) : Bool :=
  match s with
  | '(' :: r =>
    r.tails.any (fun u =>
      match u with
      | a :: b :: c :: d :: rest =>
        a.isDigit && b.isDigit && c.isDigit && d.isDigit && rest.contains ')'
      | _ => false)
  | _ => false

/-- Evaluator.containsCitations: `\(.*\d{4}.*\)|et\s+al\.|according\s+to`. -/
def containsCitations (text : String) : Bool :=
  let t := text.toList
  t.tails.any parenYearAt ||
  t.tails.any (fun s =>
    (do
      let r1 ← litCI "et".toList s
      let r2 ← wsPlus r1
      pure ((litCI "al.".toList r2).isSome)).getD false) ||
  t.tails.any (fun s =>
    (do
      let r1 ← litCI "according".toList s
      let r2 ← wsPlus r1
      pure ((litCI "to".toList r2).isSome)).getD false)

/-- `tends?\s+to\b` at this position. -/
def tendsToAt (s : List Char) : Bool :=
  (do
    let r1 ← litCI "tend".toList s
    let r2 := match r1 with
      | c :: cs => if c.toLower = 's' then cs else r1
      | [] => r1
    let r3 ← wsPlus r2
    let r4 ← litCI "to".toList r3
    pure (boundaryAfter r4)).getD false

/-- Evaluator.containsQualifiers:
`\b(might|may|could|possibly|perhaps|likely|probably|generally|tends?\s+to)\b`. -/
def containsQualifiers (text : String) : Bool :=
  scanBoundary text.toList (fun s =>
    ["might", "may", "could", "possibly", "perhaps", "likely", "probably",
     "generally"].any (fun w => simpleWordAt w s) || tendsToAt s)

/-! ## Argument entity (src/core/argument.js) -/

/-- Error classes, one constructor per family of source throws, using the
names of the specification (the source throws plain `Error`s with the
quoted messages; the constructor identifies the throw site family).
`typeError` models the runtime TypeError raised by calling a method of
`undefined`. -/
inductive JsError where
  | validation : String → JsError
  | duplicate : String → JsError
  | unknownRef : String → JsError
  | invalidInput : String → JsError
  | typeError : String → JsError
deriving DecidableEq, Repr

/-- The constructor input object of `new Argument(data)`.  Strings model JS
strings (absent string fields are modelled by the empty string, which is
exactly the falsy case the validator rejects); `Option` fields model
possibly-`undefined` properties.  `premises` is typed as a list, so the
`Array.isArray` check of the validator always passes in this embedding. -/
structure ArgData where
  argumentId : String
  claim : String
  premises : List String
  conclusion : String
  argumentType : String
  confidence : Option ℚ := none
  respondsTo : Option String := none
  supports : Option (List String) := none
  contradicts : Option (List String) := none
  strengths : Option (List String) := none
  weaknesses : Option (List String) := none
deriving DecidableEq, Repr

/-- The constructed Argument object (timestamps omitted). -/
structure Argument where
  id : String
  claim : String
  premises : List String
  conclusion : String
  type : String
  confidence : JSVal
  respondsTo : Option String
  supports : List String
  contradicts : List String
  strengths : List String
  weaknesses : List String
deriving DecidableEq, Repr

/-- The valid argument type tags of Argument.validateArgument. -/
def validTypes : List String :=
  ["thesis", "antithesis", "synthesis", "objection", "rebuttal"]

/-- Argument.validateArgument: the first failing check wins, mirroring the
sequence of `throw` statements. -/
def validateArgument (data : ArgData) : Option JsError :=
  if data.argumentId = "" then some (.validation "Argument ID is required")
  else if data.claim = "" then some (.validation "Claim is required")
  else if data.conclusion = "" then some (.validation "Conclusion is required")
  else if data.argumentType = "" then some (.validation "Argument type is required")
  else if !validTypes.contains data.argumentType then
    some (.validation "Invalid argument type")
  else
    match data.confidence with
    | some c =>
      if c < 0 || c > 1 then some (.validation "Confidence must be between 0 and 1")
      else none
    | none => none

/-- The field assignments of the Argument constructor (after validation):
`respondsTo` goes through `|| null` (an empty string is falsy and becomes
null), the list fields through `|| []`. -/
def buildArgument (data : ArgData) : Argument where
  id := data.argumentId
  claim := data.claim
  premises := data.premises
  conclusion := data.conclusion
  type := data.argumentType
  confidence := data.confidence
  respondsTo :=
    match data.respondsTo with
    | some s => if s = "" then none else some s
    | none => none
  supports := data.supports.getD []
  contradicts := data.contradicts.getD []
  strengths := data.strengths.getD []
  weaknesses := data.weaknesses.getD []

/-- `new Argument(data)`: validate, then construct. -/
def mkArgument (data : ArgData) : Except JsError Argument :=
  match validateArgument data with
  | some e => .error e
  | none => .ok (buildArgument data)

/-- Argument.updateConfidence: on a range violation the method throws
before assigning, so the returned argument is unchanged and the error is
reported alongside it. -/
def updateConfidence (a : Argument) (newConfidence : ℚ) :
    Argument × Option JsError :=
  if newConfidence < 0 || newConfidence > 1 then
    (a, some (.validation "Confidence must be between 0 and 1"))
  else
    ({ a with confidence := some newConfidence }, none)

/-! ## ArgumentGraph (src/core/argumentGraph.js) -/

/-- The per-id relationship record of the adjacency list. -/
structure RelRecord where
  supports : List String
  contradicts : List String
  respondsTo : Option String
deriving DecidableEq, Repr

/-- The graph: the id-to-Argument map and the id-to-record adjacency map,
both insertion ordered, modelled as entry lists. -/
structure ArgumentGraph where
  args : List Argument
  adj : List (String × RelRecord)
deriving DecidableEq, Repr

/-- The empty graph of the ArgumentGraph constructor. -/
def newGraph : ArgumentGraph := ⟨[], []⟩

/-- `this.arguments.has(id)`. -/
def hasArg (g : ArgumentGraph) (id : String) : Bool :=
  g.args.any (fun a => a.id = id)

/-- `this.arguments.get(id)` (first entry with the key, as in a JS Map). -/
def getArgument (g : ArgumentGraph) (id : String) : Option Argument :=
  g.args.find? (fun a => a.id = id)

/-- `this.adjacencyList.get(id)`. -/
def lookupRel (g : ArgumentGraph) (id : String) : Option RelRecord :=
  (g.adj.find? (fun p => p.1 = id)).map (fun p => p.2)

/-- Update the adjacency record stored under `id` in place. -/
def updateAdj (g : ArgumentGraph) (id : String) (f : RelRecord → RelRecord) :
    ArgumentGraph :=
  { g with adj := g.adj.map (fun p => if p.1 = id then (p.1, f p.2) else p) }

/-- ArgumentGraph.addSupportsRelationship: both ids must exist, then the
supported id is pushed onto the supporter record. -/
def addSupportsRelationship (g : ArgumentGraph) (supporterId supportedId : String) :
    Except JsError ArgumentGraph :=
  if hasArg g supporterId && hasArg g supportedId then
    .ok (updateAdj g supporterId
      (fun r => { r with supports := r.supports ++ [supportedId] }))
  else .error (.unknownRef "Both arguments must exist in the graph")

/-- ArgumentGraph.addContradictsRelationship. -/
def addContradictsRelationship (g : ArgumentGraph) (contradictorId contradictedId : String) :
    Except JsError ArgumentGraph :=
  if hasArg g contradictorId && hasArg g contradictedId then
    .ok (updateAdj g contradictorId
      (fun r => { r with contradicts := r.contradicts ++ [contradictedId] }))
  else .error (.unknownRef "Both arguments must exist in the graph")

/-- ArgumentGraph.addRespondsToRelationship. -/
def addRespondsToRelationship (g : ArgumentGraph) (responderId respondeeId : String) :
    Except JsError ArgumentGraph :=
  if hasArg g responderId && hasArg g respondeeId then
    .ok (updateAdj g responderId (fun r => { r with respondsTo := some respondeeId }))
  else .error (.unknownRef "Both arguments must exist in the graph")

/-- A `forEach` loop of relationship registrations: a throw aborts the loop,
leaving the mutations of the earlier iterations in place. -/
def addRelList (single : ArgumentGraph → String → String → Except JsError ArgumentGraph)
    (g : ArgumentGraph) (src : String) : List String → ArgumentGraph × Option JsError
  | [] => (g, none)
  | r :: rs =>
    match single g src r with
    | .ok g2 => addRelList single g2 src rs
    | .error e => (g, some e)

/-- ArgumentGraph.addArgument: construct and validate, reject a duplicate
id, insert the argument and an empty relationship record, then register
the declared supports, contradicts and respondsTo relationships in that
order.  A failed registration leaves the argument and the already
registered edges in the graph (the source method mutates `this` before
the loop that can throw). -/
def addArgument (g : ArgumentGraph) (data : ArgData) :
    ArgumentGraph × Except JsError Argument :=
  match mkArgument data with
  | .error e => (g, .error e)
  | .ok a =>
    if hasArg g a.id then (g, .error (.duplicate a.id))
    else
      match addRelList addSupportsRelationship
          ⟨g.args ++ [a], g.adj ++ [(a.id, ⟨[], [], none⟩)]⟩ a.id a.supports with
      | (g2, some e) => (g2, .error e)
      | (g2, none) =>
        match addRelList addContradictsRelationship g2 a.id a.contradicts with
        | (g3, some e) => (g3, .error e)
        | (g3, none) =>
          match a.respondsTo with
          | none => (g3, .ok a)
          | some r =>
            match addRespondsToRelationship g3 a.id r with
            | .ok g4 => (g4, .ok a)
            | .error e => (g3, .error e)

/-- ArgumentGraph.getArgumentsByType. -/
def getArgumentsByType (g : ArgumentGraph) (type : String) : List Argument :=
  g.args.filter (fun a => a.type = type)

/-- ArgumentGraph.getSupporters: a scan over the Argument objects testing
their own `supports` field (not the adjacency records). -/
def getSupporters (g : ArgumentGraph) (argumentId : String) : List Argument :=
  g.args.filter (fun a => a.supports.contains argumentId)

/-- ArgumentGraph.getContradictors. -/
def getContradictors (g : ArgumentGraph) (argumentId : String) : List Argument :=
  g.args.filter (fun a => a.contradicts.contains argumentId)

/-- ArgumentGraph.getResponders. -/
def getResponders (g : ArgumentGraph) (argumentId : String) : List Argument :=
  g.args.filter (fun a => a.respondsTo = some argumentId)

/-- ArgumentGraph.findPaths, fuelled.  The identity check answers before
the graph or the fuel is consulted; each recursive call copies the
visited set extended with the current node, so the recursion depth is
bounded by the number of adjacency entries and the fuel chosen by the
wrapper is never exhausted. -/
def findPathsAux (g : ArgumentGraph) : ℕ → String → String → List String → List (List String)
  | fuel, startId, endId, visited =>
    if startId = endId then [[startId]]
    else
      match fuel with
      | 0 => []
      | fuel + 1 =>
        let visited2 := visited ++ [startId]
        match lookupRel g startId with
        | none => []
        | some conn =>
          let allConnected := conn.supports ++ conn.contradicts ++
            (match conn.respondsTo with | some r => [r] | none => [])
          allConnected.flatMap (fun nextId =>
            if visited2.contains nextId then []
            else (findPathsAux g fuel nextId endId visited2).map
              (fun subpath => startId :: subpath))

/-- ArgumentGraph.findPaths entry point (empty visited set). -/
def findPaths (g : ArgumentGraph) (startId endId : String) : List (List String) :=
  findPathsAux g (g.adj.length + 1) startId endId []

/-! ## Evaluator (src/analysis/evaluator.js) -/

/-- The concatenated text of claim, space-joined premises and conclusion,
separated by single spaces, used by Evaluator.detectFallacies. -/
def argumentText (a : Argument) : String :=
  a.claim ++ " " ++ String.intercalate " " a.premises ++ " " ++ a.conclusion

/-- Evaluator.detectFallacies: the three regex heuristics, each contributing
one entry when its pattern occurs. -/
def detectFallacies (a : Argument) : List String :=
  let t := (argumentText a).toList
  (if scanBoundary t adHominemAt then ["Possible ad hominem"] else []) ++
  (if scanBoundary t strawManAt then ["Possible straw man"] else []) ++
  (if scanBoundary t falseDichotomyAt then ["Possible false dichotomy"] else [])

/-- Evaluator.checkCoherence: at least two claim keywords occur among the
premise or conclusion keywords. -/
def checkCoherence (a : Argument) : Bool :=
  let claimKeywords := extractKeywords a.claim
  let premiseKeywords := a.premises.flatMap extractKeywords
  let conclusionKeywords := extractKeywords a.conclusion
  ((claimKeywords.filter (fun kw =>
    premiseKeywords.contains kw || conclusionKeywords.contains kw)).length) ≥ 2

/-- Evaluator.evaluateLogicalStructure.  The first term divides the keyword
overlap by the number of conclusion keywords: with zero conclusion keywords
this is the JS division `0/0`, which is NaN and propagates through every
following step including the final clamp. -/
def evaluateLogicalStructure (a : Argument) : JSVal :=
  let conclusionKeywords := extractKeywords a.conclusion
  let premiseKeywords := a.premises.flatMap extractKeywords
  let keywordOverlap :=
    (conclusionKeywords.filter (fun kw => premiseKeywords.contains kw)).length
  let s1 := jadd (some 0)
    (jmul (jdiv (some keywordOverlap) (some conclusionKeywords.length)) (some (mkRat 4 10)))
  let s2 := jsub s1 (some (qmul ((detectFallacies a).length : ℚ) (mkRat 1 10)))
  let s3 := if checkCoherence a then jadd s2 (some (mkRat 3 10)) else s2
  let s4 := if a.premises.length ≥ 2 then jadd s3 (some (mkRat 2 10)) else s3
  jmax (some 0) (jmin (some 1) s4)

/-- Evaluator.evaluateEvidence: a pure rational score (no division). -/
def evaluateEvidence (a : Argument) : ℚ :=
  let score := a.premises.foldl (fun acc premise =>
    let acc1 := if containsData premise then qadd acc (mkRat 2 10) else acc
    let acc2 := if containsCitations premise then qadd acc1 (mkRat 15 100) else acc1
    if containsQualifiers premise then qadd acc2 (mkRat 1 10) else acc2) 0
  min 1 score

/-- Evaluator.evaluateSupport: supporter and contradictor counts, plus the
average supporter confidence (the `|| 1` guard keeps the denominator
nonzero; an undefined supporter confidence still yields NaN). -/
def evaluateSupport (a : Argument) (g : ArgumentGraph) : JSVal :=
  let supporters := getSupporters g a.id
  let contradictors := getContradictors g a.id
  let s1 := jsub (some (min (qmul (supporters.length : ℚ) (mkRat 2 10)) (mkRat 6 10)))
    (some (min (qmul (contradictors.length : ℚ) (mkRat 15 100)) (mkRat 45 100)))
  let confSum := supporters.foldl (fun acc s => jadd acc s.confidence) (some 0)
  let avg := jdiv confSum
    (some (if supporters.length = 0 then 1 else (supporters.length : ℚ)))
  jmax (some 0) (jmin (some 1) (jadd s1 (jmul avg (some (mkRat 2 10)))))

/-- The evaluation result shape of Evaluator.evaluateArgument. -/
structure Evaluation where
  strengths : List String
  weaknesses : List String
  score : JSVal
  supportScore : JSVal
  logicalScore : JSVal
  evidenceScore : JSVal
deriving DecidableEq, Repr

/-- Evaluator.identifyStrengths (NaN compares false against every threshold). -/
def identifyStrengths (a : Argument) (logicalScore evidenceScore supportScore : JSVal) :
    List String :=
  (if jgtB logicalScore (mkRat 7 10) then ["Strong logical structure"] else []) ++
  (if jgtB evidenceScore (mkRat 6 10) then ["Well-supported with evidence"] else []) ++
  (if jgtB supportScore (mkRat 5 10) then ["Strong support from related arguments"] else []) ++
  (if jgtB a.confidence (mkRat 8 10) then ["High confidence level"] else []) ++
  (if a.premises.length ≥ 3 then ["Comprehensive premise set"] else [])

/-- Evaluator.identifyWeaknesses. -/
def identifyWeaknesses (a : Argument) (logicalScore evidenceScore supportScore : JSVal) :
    List String :=
  (if jltB logicalScore (mkRat 4 10) then
    ["Weak logical connection between premises and conclusion"] else []) ++
  (if jltB evidenceScore (mkRat 3 10) then ["Insufficient evidence or data"] else []) ++
  (if jltB supportScore (mkRat 2 10) then ["Lack of supporting arguments"] else []) ++
  (if jltB a.confidence (mkRat 4 10) then ["Low confidence level"] else []) ++
  (if a.premises.length < 2 then ["Insufficient premises"] else []) ++
  (if a.premises.length = 1 then ["Overly dependent on single premise"] else [])

/-- Evaluator.calculateOverallScore: logical*0.4 + evidence*0.3 + support*0.3. -/
def calculateOverallScore (logicalScore evidenceScore supportScore : JSVal) : JSVal :=
  jadd (jadd (jmul logicalScore (some (mkRat 4 10))) (jmul evidenceScore (some (mkRat 3 10))))
    (jmul supportScore (some (mkRat 3 10)))

/-- Evaluator.evaluateArgument. -/
def evaluateArgument (a : Argument) (g : ArgumentGraph) : Evaluation :=
  let logicalScore := evaluateLogicalStructure a
  let evidenceScore : JSVal := some (evaluateEvidence a)
  let supportScore := evaluateSupport a g
  { strengths := identifyStrengths a logicalScore evidenceScore supportScore
    weaknesses := identifyWeaknesses a logicalScore evidenceScore supportScore
    score := calculateOverallScore logicalScore evidenceScore supportScore
    supportScore := supportScore
    logicalScore := logicalScore
    evidenceScore := evidenceScore }

/-! ## DialecticalEngine (src/core/dialecticalEngine.js) -/

/-- The context snapshot object of DialecticalEngine.getCurrentContext.
Note the plural keys `objections` and `rebuttals`. -/
structure DialContext where
  thesis : List String
  antithesis : List String
  synthesis : List String
  objections : List String
  rebuttals : List String
deriving DecidableEq, Repr

/-- One step of the `forEach` in getCurrentContext: `context[arg.type].push(arg.id)`.
The context object owns exactly the five keys above; for any other type
tag — in particular the valid tags "objection" and "rebuttal" — the
property access yields `undefined` and the `push` call raises a TypeError. -/
def contextStep (ctx : DialContext) (a : Argument) : Except JsError DialContext :=
  if a.type = "thesis" then .ok { ctx with thesis := ctx.thesis ++ [a.id] }
  else if a.type = "antithesis" then .ok { ctx with antithesis := ctx.antithesis ++ [a.id] }
  else if a.type = "synthesis" then .ok { ctx with synthesis := ctx.synthesis ++ [a.id] }
  else if a.type = "objections" then .ok { ctx with objections := ctx.objections ++ [a.id] }
  else if a.type = "rebuttals" then .ok { ctx with rebuttals := ctx.rebuttals ++ [a.id] }
  else .error (.typeError "Cannot read properties of undefined (reading push)")

/-- The `forEach` of getCurrentContext over the graph entries in insertion
order, stopping at a thrown TypeError. -/
def contextFold (ctx : DialContext) : List Argument → Except JsError DialContext
  | [] => .ok ctx
  | a :: rest =>
    match contextStep ctx a with
    | .ok c => contextFold c rest
    | .error e => .error e

/-- DialecticalEngine.getCurrentContext. -/
def getCurrentContext (g : ArgumentGraph) : Except JsError DialContext :=
  contextFold ⟨[], [], [], [], []⟩ g.args

/-- A history entry of the dialectic log (timestamp omitted). -/
structure HistoryRecord where
  action : String
  argumentId : String
  argumentType : String
  context : DialContext
deriving DecidableEq, Repr

/-- The engine state: its own graph plus the append-only history. -/
structure DialecticalEngine where
  graph : ArgumentGraph
  dialecticHistory : List HistoryRecord
deriving DecidableEq, Repr

/-- A fresh engine. -/
def newEngine : DialecticalEngine := ⟨newGraph, []⟩

/-- DialecticalEngine.addArgument: insert into the graph, then build and
push the history record.  The record literal evaluates
`getCurrentContext` before the push, so a TypeError there leaves the
history untouched while the graph keeps the inserted argument. -/
def engineAddArgument (e : DialecticalEngine) (data : ArgData) :
    DialecticalEngine × Except JsError Argument :=
  match addArgument e.graph data with
  | (g, .error err) => ({ e with graph := g }, .error err)
  | (g, .ok a) =>
    match getCurrentContext g with
    | .error err => ({ e with graph := g }, .error err)
    | .ok ctx =>
      (⟨g, e.dialecticHistory ++ [⟨"added", a.id, a.type, ctx⟩]⟩, .ok a)

/-- DialecticalEngine.findResolvableDifferences: a plain number is
accumulated; the confidence comparison uses JS semantics (false on NaN). -/
def findResolvableDifferences (arg1 arg2 : Argument) : ℚ :=
  let r1 : ℚ :=
    if !arg1.contradicts.contains arg2.id && !arg2.contradicts.contains arg1.id
    then mkRat 5 10 else 0
  let r2 := if jltB (jabs (jsub arg1.confidence arg2.confidence)) (mkRat 3 10)
    then qadd r1 (mkRat 3 10) else r1
  if (findSharedConcepts arg1.premises arg2.premises).length > 0
  then qadd r2 (mkRat 2 10) else r2

/-- The per-argument quality ratio of calculateSynthesisPotential:
(strengths − weaknesses) / (strengths + weaknesses + 1). -/
def qualityDelta (a : Argument) : ℚ :=
  qdiv (qsub (a.strengths.length : ℚ) (a.weaknesses.length : ℚ))
    (qadd (qadd (a.strengths.length : ℚ) (a.weaknesses.length : ℚ)) 1)

/-- DialecticalEngine.calculateSynthesisPotential: shared concepts times 0.3,
resolvable differences times 0.4, the sum (not the average) of the two
confidences times 0.15, the sum of the two quality ratios times 0.15,
capped at 1. -/
def calculateSynthesisPotential (arg1 arg2 : Argument) : JSVal :=
  let sharedConcepts := findSharedConcepts arg1.premises arg2.premises
  let p1 := jadd (some 0) (some (qmul (sharedConcepts.length : ℚ) (mkRat 3 10)))
  let p2 := jadd p1 (some (qmul (findResolvableDifferences arg1 arg2) (mkRat 4 10)))
  let p3 := jadd p2 (jmul (jadd arg1.confidence arg2.confidence) (some (mkRat 15 100)))
  let arg1Quality := qualityDelta arg1
  let arg2Quality := qualityDelta arg2
  let p4 := jadd p3 (some (qmul (qadd arg1Quality arg2Quality) (mkRat 15 100)))
  jmin p4 (some 1)

/-- A synthesis candidate record. -/
structure Candidate where
  thesis : String
  antithesis : String
  potential : JSVal
deriving DecidableEq, Repr

/-- One insertion step of the stable descending sort by potential: the new
element goes after every element not strictly below it. -/
def insertDesc (x : Candidate) : List Candidate → List Candidate
  | [] => [x]
  | y :: ys => if jgtVB x.potential y.potential then x :: y :: ys else y :: insertDesc x ys

/-- The JS stable `sort((a, b) => b.potential - a.potential)`, realised as a
stable insertion sort (the comparator is consistent whenever every
potential is a number, which pins the result down uniquely). -/
def sortByPotentialDesc (l : List Candidate) : List Candidate :=
  l.foldl (fun acc x => insertDesc x acc) []

/-- DialecticalEngine.findSynthesisCandidates: every thesis paired with
each antithesis related by respondsTo or a contradicts edge in either
direction, skipping pairs already covered by a synthesis, scored and
sorted descending. -/
def findSynthesisCandidates (e : DialecticalEngine) : List Candidate :=
  let theses := getArgumentsByType e.graph "thesis"
  let antitheses := getArgumentsByType e.graph "antithesis"
  let candidates := theses.flatMap (fun thesis =>
    ((antitheses.filter (fun anti =>
        anti.respondsTo = some thesis.id ||
        anti.contradicts.contains thesis.id ||
        thesis.contradicts.contains anti.id)).filterMap (fun antithesis =>
      if (e.graph.args.find? (fun arg =>
            arg.type = "synthesis" &&
            arg.supports.contains thesis.id &&
            arg.supports.contains antithesis.id)).isSome
      then none
      else some ⟨thesis.id, antithesis.id, calculateSynthesisPotential thesis antithesis⟩)))
  sortByPotentialDesc candidates

/-- The draft object returned by the two synthesis generators (not an
Argument: a plain record with these six fields). -/
structure Draft where
  claim : String
  premises : List String
  conclusion : String
  type : String
  supports : List String
  confidence : JSVal
deriving DecidableEq, Repr

/-- DialecticalEngine.generateSynthesis: both ids must resolve, then a
deterministic two-argument merge whose confidence is
`min(thesis.confidence, antithesis.confidence) + 0.1`, not clamped. -/
def engineGenerateSynthesis (e : DialecticalEngine) (thesisId antithesisId : String) :
    Except JsError Draft :=
  match getArgument e.graph thesisId, getArgument e.graph antithesisId with
  | some thesis, some antithesis =>
    let sharedConcepts := findSharedConcepts thesis.premises antithesis.premises
    let synthesisClaim :=
      "Integration of \"" ++ thesis.claim ++ "\" and \"" ++ antithesis.claim ++ "\""
    let synthesisPremises :=
      thesis.premises.filter (fun p =>
        sharedConcepts.any (fun c => strContains (String.map Char.toLower p) c)) ++
      antithesis.premises.filter (fun p =>
        sharedConcepts.any (fun c => strContains (String.map Char.toLower p) c))
    let synthesisConclusion :=
      "A balanced approach that incorporates strengths from both perspectives: " ++
      thesis.conclusion ++ " and " ++ antithesis.conclusion
    .ok
      { claim := synthesisClaim
        premises := synthesisPremises
        conclusion := synthesisConclusion
        type := "synthesis"
        supports := [thesisId, antithesisId]
        confidence := jadd (jmin thesis.confidence antithesis.confidence) (some (mkRat 1 10)) }
  | _, _ => .error (.unknownRef "Invalid argument IDs for synthesis")

/-! ## Concrete fixtures used by witnesses and counterexamples -/

/-- A minimal valid thesis input with id "a". -/
def dA : ArgData :=
  { argumentId := "a", claim := "c", premises := [], conclusion := "d",
    argumentType := "thesis", confidence := some (mkRat 1 2) }

/-- A valid input with id "b" supporting the existing id "a". -/
def dB : ArgData :=
  { argumentId := "b", claim := "c", premises := [], conclusion := "d",
    argumentType := "thesis", confidence := some (mkRat 1 2), supports := some ["a"] }

/-- A valid input whose supports list references its own new id. -/
def dSelf : ArgData :=
  { argumentId := "s", claim := "c", premises := [], conclusion := "d",
    argumentType := "thesis", confidence := some (mkRat 1 2), supports := some ["s"] }

/-- A valid input whose supports list names one existing id and one id
absent from every fixture graph. -/
def dBbad : ArgData :=
  { argumentId := "b", claim := "c", premises := [], conclusion := "d",
    argumentType := "thesis", confidence := some (mkRat 1 2), supports := some ["a", "zz"] }

/-- A valid input whose contradicts list names one existing id and one id
absent from every fixture graph. -/
def dCbad : ArgData :=
  { argumentId := "b", claim := "c", premises := [], conclusion := "d",
    argumentType := "thesis", confidence := some (mkRat 1 2),
    contradicts := some ["a", "zz"] }

/-- A valid input whose respondsTo target is absent from every fixture
graph. -/
def dRbad : ArgData :=
  { argumentId := "b", claim := "c", premises := [], conclusion := "d",
    argumentType := "thesis", confidence := some (mkRat 1 2),
    respondsTo := some "zz" }

/-- A valid input of type objection. -/
def dObj : ArgData :=
  { argumentId := "o1", claim := "c", premises := [], conclusion := "d",
    argumentType := "objection", confidence := some (mkRat 1 2) }

/-- A valid input supplying no confidence. -/
def dNoConf : ArgData :=
  { argumentId := "n", claim := "c", premises := [], conclusion := "d",
    argumentType := "thesis" }

/-- A valid input with confidence 3/4, for the confidence witness. -/
def dW : ArgData :=
  { argumentId := "w", claim := "c", premises := [], conclusion := "d",
    argumentType := "thesis", confidence := some (mkRat 3 4) }

/-- The graph holding only argument "a". -/
def gA : ArgumentGraph := (addArgument newGraph dA).1

/-- The graph holding "a" and an unrelated "b". -/
def gAB : ArgumentGraph :=
  (addArgument gA
    { argumentId := "b", claim := "c", premises := [], conclusion := "d",
      argumentType := "thesis", confidence := some (mkRat 1 2) }).1

/-- `gAB` after a direct addSupportsRelationship("a", "b") call. -/
def gABplus : ArgumentGraph :=
  updateAdj gAB "a" (fun r => { r with supports := r.supports ++ ["b"] })

/-- An argument whose conclusion "it is" has no keywords (both words are
too short and are stop words). -/
def a6 : Argument :=
  buildArgument
    { argumentId := "x1", claim := "x", premises := [], conclusion := "it is",
      argumentType := "thesis", confidence := some (mkRat 1 2) }

/-- The graph holding only `a6`. -/
def g6 : ArgumentGraph :=
  (addArgument newGraph
    { argumentId := "x1", claim := "x", premises := [], conclusion := "it is",
      argumentType := "thesis", confidence := some (mkRat 1 2) }).1

/-- A thesis with confidence 0.9. -/
def dT7 : ArgData :=
  { argumentId := "t1", claim := "c", premises := [], conclusion := "d",
    argumentType := "thesis", confidence := some (mkRat 9 10) }

/-- An antithesis with confidence 0.95 responding to "t1". -/
def dA7 : ArgData :=
  { argumentId := "a1", claim := "c", premises := [], conclusion := "d",
    argumentType := "antithesis", confidence := some (mkRat 19 20), respondsTo := some "t1" }

/-- The engine holding the 0.9 thesis and the 0.95 antithesis. -/
def e7 : DialecticalEngine :=
  (engineAddArgument (engineAddArgument newEngine dT7).1 dA7).1

/-- A thesis with confidence 1. -/
def dT8 : ArgData :=
  { argumentId := "t1", claim := "c", premises := [], conclusion := "d",
    argumentType := "thesis", confidence := some 1 }

/-- An antithesis with confidence 1 responding to "t1". -/
def dA8 : ArgData :=
  { argumentId := "a1", claim := "c", premises := [], conclusion := "d",
    argumentType := "antithesis", confidence := some 1, respondsTo := some "t1" }

/-- The engine holding the two confidence-1 arguments. -/
def e8 : DialecticalEngine :=
  (engineAddArgument (engineAddArgument newEngine dT8).1 dA8).1

/-- The single candidate that `e8` produces, with the potential the code
computes (0.62). -/
def cand8 : Candidate := ⟨"t1", "a1", some (mkRat 31 50)⟩

/-- Modelled from the words of claim C8, for comparison with the source
formula: potential with avgConfidence and avgQualityDelta taken as the
AVERAGES over the pair, weighted 0.15 each, clamped to at most 1. -/
def specSynthesisPotential (t a : Argument) : JSVal :=
  jmin
    (jadd
      (jadd
        (jadd (some (qmul ((findSharedConcepts t.premises a.premises).length : ℚ) (mkRat 3 10)))
          (some (qmul (findResolvableDifferences t a) (mkRat 4 10))))
        (jmul (jdiv (jadd t.confidence a.confidence) (some 2)) (some (mkRat 15 100))))
      (some (qmul (qdiv (qadd (qualityDelta t) (qualityDelta a)) 2) (mkRat 15 100))))
    (some 1)

/-- All ids referenced by the relationship fields of a construction input
(after the constructor defaulting): supports, then contradicts, then the
respondsTo target if any. -/
def refsOfData (data : ArgData) : List String :=
  (buildArgument data).supports ++ (buildArgument data).contradicts ++
    (match (buildArgument data).respondsTo with | some r => [r] | none => [])

/-- Descending order by potential, read on the numeric values (vacuous for
a NaN potential, which the comparator of the source cannot order). -/
def potDescend (x y : Candidate) : Prop :=
  ∀ px py, x.potential = some px → y.potential = some py → py ≤ px

/-! ## Claim theorems -/

/-! Conversion of the kernel-evaluable rational operations to the field
operations of `ℚ`. -/

theorem qadd_eq (a b : ℚ) : qadd a b = a + b := by
  unfold qadd
  rw [Rat.divInt_eq_div]
  conv_rhs => rw [← Rat.num_div_den a, ← Rat.num_div_den b]
  have ha : ((a.den : ℚ)) ≠ 0 := by exact_mod_cast a.den_nz
  have hb : ((b.den : ℚ)) ≠ 0 := by exact_mod_cast b.den_nz
  field_simp

theorem qsub_eq (a b : ℚ) : qsub a b = a - b := by
  unfold qsub
  rw [Rat.divInt_eq_div]
  conv_rhs => rw [← Rat.num_div_den a, ← Rat.num_div_den b]
  have ha : ((a.den : ℚ)) ≠ 0 := by exact_mod_cast a.den_nz
  have hb : ((b.den : ℚ)) ≠ 0 := by exact_mod_cast b.den_nz
  field_simp
  ring

theorem qmul_eq (a b : ℚ) : qmul a b = a * b := by
  unfold qmul
  rw [Rat.divInt_eq_div]
  conv_rhs => rw [← Rat.num_div_den a, ← Rat.num_div_den b]
  have ha : ((a.den : ℚ)) ≠ 0 := by exact_mod_cast a.den_nz
  have hb : ((b.den : ℚ)) ≠ 0 := by exact_mod_cast b.den_nz
  field_simp

theorem qdiv_eq (a b : ℚ) : qdiv a b = a / b := by
  unfold qdiv
  by_cases hb0 : b = 0
  · subst hb0; simp [Rat.divInt_eq_div]
  · rw [Rat.divInt_eq_div]
    conv_rhs => rw [← Rat.num_div_den a, ← Rat.num_div_den b]
    have ha : ((a.den : ℚ)) ≠ 0 := by exact_mod_cast a.den_nz
    have hbd : ((b.den : ℚ)) ≠ 0 := by exact_mod_cast b.den_nz
    have hbn : ((b.num : ℚ)) ≠ 0 := by exact_mod_cast Rat.num_ne_zero.mpr hb0
    field_simp



/-- C10: for every id x, including ids absent from the graph, findPaths(x, x)
returns exactly the single-element list containing the one-node path [x];
the identity case is answered before any membership or adjacency check and
never consults the graph (the result is the same for every graph). -/
theorem c10_findPaths_identity (g : ArgumentGraph) (x : String) :
    findPaths g x x = [[x]] := by
  unfold findPaths findPathsAux
  simp

/-- C2 counterexample: an argument whose supports list references its own
new id — an id not present in the graph before the call — is inserted
successfully, because addArgument registers the argument in the map before
processing its relationships.  This refutes the claim that such a call
always fails with UnknownReferenceError. -/
theorem c2_self_reference_succeeds :
    (addArgument newGraph dSelf).2 = .ok (buildArgument dSelf) := by decide

/-- C1 counterexample: inserting "b" with supports ["a", "zz"] into the
graph that holds only "a" fails (the reference "zz" is unknown), yet the
graph is mutated: "b" is present in the argument map, its relationship
record exists, and the edge from the earlier-processed supports entry "a"
has been added.  This refutes the atomicity part of the claim. -/
theorem c1_addArgument_not_atomic_counterexample :
    (addArgument gA dBbad).2 =
      .error (.unknownRef "Both arguments must exist in the graph") ∧
    hasArg (addArgument gA dBbad).1 "b" = true ∧
    lookupRel (addArgument gA dBbad).1 "b" = some ⟨["a"], [], none⟩ := by decide

/-- C4 counterexample: after a direct addSupportsRelationship("a", "b")
call the relationship record of "a" contains a supports edge to "b", yet
getSupporters("b") is empty — the getter scans the constructor-declared
supports field of the Argument objects, not the relationship records.
This refutes the claim that edges registered after construction are
included. -/
theorem c4_relationship_edge_invisible :
    addSupportsRelationship gAB "a" "b" = .ok gABplus ∧
    lookupRel gABplus "a" = some ⟨["b"], [], none⟩ ∧
    getSupporters gABplus "b" = [] := by decide

/-- C5 counterexample: a construction input that supplies no confidence
passes validation, and the constructed argument stores an undefined
confidence — the post-construction invariant 0 ≤ confidence ≤ 1 does not
hold for it.  This refutes the claim over all valid construction inputs. -/
theorem c5_confidence_optional_counterexample :
    mkArgument dNoConf = .ok (buildArgument dNoConf) ∧
    (buildArgument dNoConf).confidence = none := by decide

/-- C3: adding a valid argument of type objection through the engine
inserts it into the graph but then raises a TypeError inside
getCurrentContext (the snapshot object keys are the plurals "objections"
and "rebuttals" while the type tags are singular), so no history record is
appended — the engine addArgument call fails instead of logging the
snapshot the claim (and the spec) describe. -/
theorem c3_objection_history_type_error :
    (engineAddArgument newEngine dObj).2 =
      .error (.typeError "Cannot read properties of undefined (reading push)") ∧
    (engineAddArgument newEngine dObj).1.dialecticHistory = [] ∧
    hasArg (engineAddArgument newEngine dObj).1.graph "o1" = true := by decide

/-- C6: on an argument whose conclusion has zero keywords the evaluator
divides zero by zero; the resulting NaN propagates through the clamp and
the weighted sum, so logicalScore and the overall score are NaN rather
than the claimed well-defined numbers in [0, 1] (the claim and the spec
say the overlap term is 0 in this case). -/
theorem c6_zero_conclusion_keywords_nan :
    extractKeywords a6.conclusion = [] ∧
    (evaluateArgument a6 g6).logicalScore = none ∧
    (evaluateArgument a6 g6).score = none := by decide

/-- C8 counterexample: on the eligible pair of `e8` (both confidences 1,
no strengths, no weaknesses, no shared concepts) the code assigns
potential 0.62 — the confidence term is the SUM of the confidences times
0.15 — while the claimed formula with the average of the confidences
yields 0.47.  This refutes the claimed potential formula. -/
theorem c8_potential_sum_not_average :
    (findSynthesisCandidates e8).map Candidate.potential = [some (mkRat 31 50)] ∧
    specSynthesisPotential (buildArgument dT8) (buildArgument dA8) = some (mkRat 47 100) ∧
    (some (mkRat 31 50) : JSVal) ≠ some (mkRat 47 100) := by decide

/-- Every failing branch of the validator is a ValidationError. -/
theorem validateArgument_some_validation {data : ArgData} {e : JsError}
    (h : validateArgument data = some e) : ∃ m, e = .validation m := by
  unfold validateArgument at h
  repeat' split at h
  all_goals
    first
      | exact Option.noConfusion h
      | (injection h with h2; exact ⟨_, h2.symm⟩)

/-- A validated input carrying a confidence carries one inside [0, 1]. -/
theorem validateArgument_none_confidence {data : ArgData} {c : ℚ}
    (h : validateArgument data = none) (hc : data.confidence = some c) :
    0 ≤ c ∧ c ≤ 1 := by
  unfold validateArgument at h
  rw [hc] at h
  repeat' split at h
  all_goals simp_all

/-- C5 (amended): for every construction input that supplies a confidence
and succeeds, the stored confidence equals the supplied one and lies in
[0, 1]; every successful updateConfidence stores the new value inside
[0, 1]; a construction or update supplying a confidence outside [0, 1]
fails with ValidationError, the update leaving the argument unchanged.
(A construction that supplies no confidence succeeds with the confidence
left undefined — the counterexample.) -/
theorem c5_confidence_invariant :
    (∀ (data : ArgData) (a : Argument) (c : ℚ),
      mkArgument data = .ok a → data.confidence = some c →
      a.confidence = some c ∧ 0 ≤ c ∧ c ≤ 1) ∧
    (∀ (a : Argument) (c : ℚ), (updateConfidence a c).2 = none →
      (updateConfidence a c).1.confidence = some c ∧ 0 ≤ c ∧ c ≤ 1) ∧
    (∀ (a : Argument) (c : ℚ), c < 0 ∨ 1 < c →
      updateConfidence a c = (a, some (.validation "Confidence must be between 0 and 1"))) ∧
    (∀ (data : ArgData) (c : ℚ), data.confidence = some c → (c < 0 ∨ 1 < c) →
      ∃ m, mkArgument data = .error (.validation m)) := by
  refine ⟨?_, ?_, ?_, ?_⟩
  · intro data a c h hc
    unfold mkArgument at h
    cases hv : validateArgument data with
    | some e => rw [hv] at h; cases h
    | none =>
      rw [hv] at h
      cases h
      refine ⟨hc, validateArgument_none_confidence hv hc⟩
  · intro a c h
    unfold updateConfidence at h ⊢
    split at h
    · cases h
    · next hcond =>
      rw [if_neg hcond]
      simp only [Bool.or_eq_true, decide_eq_true_eq, not_or, not_lt, gt_iff_lt] at hcond
      exact ⟨rfl, hcond.1, hcond.2⟩
  · intro a c h
    have hcond : (decide (c < 0) || decide (c > 1)) = true := by
      rcases h with h | h <;> simp [h]
    unfold updateConfidence
    simp [hcond]
  · intro data c hc hrange
    cases hv : validateArgument data with
    | some e =>
      obtain ⟨m, hm⟩ := validateArgument_some_validation hv
      exact ⟨m, by simp [mkArgument, hv, hm]⟩
    | none =>
      exfalso
      have := validateArgument_none_confidence hv hc
      rcases hrange with h | h <;> linarith [this.1, this.2]

/-- C5 witness: the confidence 3/4 input constructs successfully and the
stored confidence is 3/4 inside [0, 1]. -/
theorem c5_confidence_invariant_witness :
    mkArgument dW = .ok (buildArgument dW) ∧
    ((buildArgument dW).confidence = some (mkRat 3 4) ∧
      0 ≤ mkRat 3 4 ∧ mkRat 3 4 ≤ 1) :=
  ⟨by decide,
    c5_confidence_invariant.1 dW (buildArgument dW) (mkRat 3 4) (by decide) (by decide)⟩

/-- C4 (amended): getSupporters(id) returns exactly the arguments of the
graph whose own supports field (the constructor-declared edges) contains
id; a supports edge registered through addSupportsRelationship after
construction changes only the relationship records and leaves every
getSupporters result unchanged. -/
theorem c4_getSupporters_field_based :
    (∀ (g : ArgumentGraph) (id : String) (a : Argument),
      a ∈ getSupporters g id ↔ a ∈ g.args ∧ a.supports.contains id = true) ∧
    (∀ (g : ArgumentGraph) (s t : String) (g2 : ArgumentGraph),
      addSupportsRelationship g s t = .ok g2 →
      ∀ id, getSupporters g2 id = getSupporters g id) := by
  constructor
  · intro g id a
    unfold getSupporters
    simp [List.mem_filter]
  · intro g s t g2 h id
    unfold addSupportsRelationship at h
    split at h
    · cases h; rfl
    · cases h

/-- C4 witness: the direct relationship call on the two-argument fixture
graph succeeds and leaves getSupporters("b") unchanged. -/
theorem c4_getSupporters_field_based_witness :
    addSupportsRelationship gAB "a" "b" = .ok gABplus ∧
    getSupporters gABplus "b" = getSupporters gAB "b" :=
  ⟨by decide, c4_getSupporters_field_based.2 gAB "a" "b" gABplus (by decide) "b"⟩

/-- C7: DialecticalEngine.generateSynthesis fails with UnknownReferenceError
when either id is absent; when both resolve it returns a draft of type
synthesis supporting exactly the two ids whose confidence is
min(thesis.confidence, antithesis.confidence) + 0.1 with no clamping. -/
theorem c7_generateSynthesis_spec (e : DialecticalEngine) (tid aid : String) :
    ((getArgument e.graph tid = none ∨ getArgument e.graph aid = none) →
      engineGenerateSynthesis e tid aid =
        .error (.unknownRef "Invalid argument IDs for synthesis")) ∧
    (∀ t a, getArgument e.graph tid = some t → getArgument e.graph aid = some a →
      ∃ d, engineGenerateSynthesis e tid aid = .ok d ∧ d.type = "synthesis" ∧
        d.supports = [tid, aid] ∧
        d.confidence = jadd (jmin t.confidence a.confidence) (some (mkRat 1 10))) := by
  constructor
  · intro h
    unfold engineGenerateSynthesis
    rcases ht : getArgument e.graph tid with _ | t <;>
      rcases ha : getArgument e.graph aid with _ | a <;> try rfl
    rcases h with h | h
    · rw [ht] at h; cases h
    · rw [ha] at h; cases h
  · intro t a ht ha
    unfold engineGenerateSynthesis
    rw [ht, ha]
    exact ⟨_, rfl, rfl, rfl, rfl⟩

/-- C7 witness: with confidences 0.9 and 0.95 the returned confidence is
min(0.9, 0.95) + 0.1 = 1.0, reaching 1.0 unclamped. -/
theorem c7_generateSynthesis_spec_witness :
    (∃ d, engineGenerateSynthesis e7 "t1" "a1" = .ok d ∧ d.type = "synthesis" ∧
      d.supports = ["t1", "a1"] ∧
      d.confidence = jadd (jmin (buildArgument dT7).confidence
        (buildArgument dA7).confidence) (some (mkRat 1 10))) ∧
    jadd (jmin (buildArgument dT7).confidence (buildArgument dA7).confidence)
      (some (mkRat 1 10)) = some 1 :=
  ⟨(c7_generateSynthesis_spec e7 "t1" "a1").2 (buildArgument dT7) (buildArgument dA7)
    (by decide) (by decide), by decide⟩

/-! ## Lemmas on relationship registration (for C1 and C2) -/

theorem hasArg_updateAdj (g : ArgumentGraph) (id : String) (f : RelRecord → RelRecord)
    (x : String) : hasArg (updateAdj g id f) x = hasArg g x := rfl

theorem supports_ok_args : ∀ (g : ArgumentGraph) (s x : String) (g2 : ArgumentGraph),
    addSupportsRelationship g s x = .ok g2 → g2.args = g.args := by
  intro g s x g2 h
  unfold addSupportsRelationship at h
  split at h
  · cases h; rfl
  · cases h

theorem supports_ok_of : ∀ (g : ArgumentGraph) (s x : String),
    (hasArg g s && hasArg g x) = true → ∃ g2, addSupportsRelationship g s x = .ok g2 := by
  intro g s x h
  exact ⟨_, by unfold addSupportsRelationship; rw [if_pos h]⟩

theorem supports_error_of : ∀ (g : ArgumentGraph) (s x : String),
    (hasArg g s && hasArg g x) = false →
    addSupportsRelationship g s x =
      .error (.unknownRef "Both arguments must exist in the graph") := by
  intro g s x h
  unfold addSupportsRelationship
  rw [if_neg (by simp [h])]

theorem contradicts_ok_args : ∀ (g : ArgumentGraph) (s x : String) (g2 : ArgumentGraph),
    addContradictsRelationship g s x = .ok g2 → g2.args = g.args := by
  intro g s x g2 h
  unfold addContradictsRelationship at h
  split at h
  · cases h; rfl
  · cases h

theorem contradicts_ok_of : ∀ (g : ArgumentGraph) (s x : String),
    (hasArg g s && hasArg g x) = true → ∃ g2, addContradictsRelationship g s x = .ok g2 := by
  intro g s x h
  exact ⟨_, by unfold addContradictsRelationship; rw [if_pos h]⟩

theorem contradicts_error_of : ∀ (g : ArgumentGraph) (s x : String),
    (hasArg g s && hasArg g x) = false →
    addContradictsRelationship g s x =
      .error (.unknownRef "Both arguments must exist in the graph") := by
  intro g s x h
  unfold addContradictsRelationship
  rw [if_neg (by simp [h])]

/-- Behaviour of a relationship `forEach` loop: the argument map is never
changed, every reported error is the unknown-reference error, and — when
the source id exists — the loop succeeds exactly when every target id
exists, failing with the unknown-reference error when some target is
absent. -/
theorem addRelList_spec
    (single : ArgumentGraph → String → String → Except JsError ArgumentGraph)
    (hargs : ∀ g s x g2, single g s x = .ok g2 → g2.args = g.args)
    (hok : ∀ g s x, (hasArg g s && hasArg g x) = true → ∃ g2, single g s x = .ok g2)
    (herr : ∀ g s x, (hasArg g s && hasArg g x) = false →
      single g s x = .error (.unknownRef "Both arguments must exist in the graph")) :
    ∀ (l : List String) (g : ArgumentGraph) (s : String),
      (addRelList single g s l).1.args = g.args ∧
      (∀ e, (addRelList single g s l).2 = some e →
        e = .unknownRef "Both arguments must exist in the graph") ∧
      (hasArg g s = true →
        ((∀ x ∈ l, hasArg g x = true) → (addRelList single g s l).2 = none) ∧
        ((∃ x ∈ l, hasArg g x = false) →
          (addRelList single g s l).2 =
            some (.unknownRef "Both arguments must exist in the graph"))) := by
  intro l
  induction l with
  | nil =>
    intro g s
    refine ⟨rfl, ?_, ?_⟩
    · intro e he; cases he
    · intro _
      exact ⟨fun _ => rfl, fun ⟨x, hx, _⟩ => absurd hx (List.not_mem_nil x)⟩
  | cons r rs ih =>
    intro g s
    rcases hsr : single g s r with e | g2
    · have hred : addRelList single g s (r :: rs) = (g, some e) := by
        simp [addRelList, hsr]
      have eunk : e = .unknownRef "Both arguments must exist in the graph" := by
        by_cases hc : (hasArg g s && hasArg g r) = true
        · obtain ⟨g3, h3⟩ := hok g s r hc
          rw [h3] at hsr; cases hsr
        · have h4 := herr g s r (by simpa using hc)
          rw [h4] at hsr
          injection hsr with h5
          exact h5.symm
      rw [hred]
      refine ⟨rfl, ?_, ?_⟩
      · intro e2 he2; injection he2 with h6; rw [← h6]; exact eunk
      · intro hs
        constructor
        · intro hall
          have hc : (hasArg g s && hasArg g r) = true := by
            simp [hs, hall r (List.mem_cons_self r rs)]
          obtain ⟨g3, h3⟩ := hok g s r hc
          rw [h3] at hsr; cases hsr
        · intro _
          rw [eunk]
    · have hred : addRelList single g s (r :: rs) = addRelList single g2 s rs := by
        simp [addRelList, hsr]
      have hargs2 := hargs g s r g2 hsr
      have hhas : ∀ x, hasArg g2 x = hasArg g x := by
        intro x; unfold hasArg; rw [hargs2]
      obtain ⟨ih1, ih2, ih3⟩ := ih g2 s
      rw [hred]
      refine ⟨by rw [ih1, hargs2], ih2, ?_⟩
      intro hs
      obtain ⟨iha, ihb⟩ := ih3 (by rw [hhas]; exact hs)
      constructor
      · intro hall
        exact iha (fun x hx => by
          rw [hhas]; exact hall x (List.mem_cons_of_mem _ hx))
      · rintro ⟨x, hxmem, hxabs⟩
        rcases List.mem_cons.mp hxmem with hxr | hxrs
        · subst hxr
          by_cases hc : (hasArg g s && hasArg g x) = true
          · rw [hxabs] at hc; simp at hc
          · have h4 := herr g s x (by simpa using hc)
            rw [h4] at hsr; cases hsr
        · exact ihb ⟨x, hxrs, by rw [hhas]; exact hxabs⟩

/-- C2 (amended): for a valid input with a fresh id, insertion fails with
UnknownReferenceError when some referenced id is neither already present
in the graph nor the new id itself, and succeeds when every referenced id
was inserted first or is the new id (self references succeed because the
argument is registered in the map before its relationships are
processed — the counterexample to the original claim). -/
theorem c2_reference_check (g : ArgumentGraph) (data : ArgData)
    (hv : validateArgument data = none) (hd : hasArg g data.argumentId = false) :
    ((∀ r ∈ refsOfData data, hasArg g r = true ∨ r = data.argumentId) →
      (addArgument g data).2 = .ok (buildArgument data)) ∧
    ((∃ r ∈ refsOfData data, hasArg g r = false ∧ r ≠ data.argumentId) →
      (addArgument g data).2 =
        .error (.unknownRef "Both arguments must exist in the graph")) := by
  have hmk : mkArgument data = .ok (buildArgument data) := by
    unfold mkArgument; rw [hv]
  have hnot : ¬(hasArg g (buildArgument data).id = true) := by
    rw [show hasArg g (buildArgument data).id = false from hd]; simp
  unfold addArgument
  rw [hmk]
  dsimp only
  rw [if_neg hnot]
  set a := buildArgument data with hadef
  set g1 : ArgumentGraph := ⟨g.args ++ [a], g.adj ++ [(a.id, ⟨[], [], none⟩)]⟩ with hg1def
  have hg1 : ∀ x, hasArg g1 x = (hasArg g x || decide (a.id = x)) := by
    intro x
    rw [hg1def]
    unfold hasArg
    simp [List.any_append]
  have hg1s : hasArg g1 a.id = true := by rw [hg1]; simp
  have hpres : ∀ x, (hasArg g x = true ∨ x = data.argumentId) → hasArg g1 x = true := by
    intro x hx
    rw [hg1]
    rcases hx with hx | hx
    · simp [hx]
    · subst hx; simp [show a.id = data.argumentId from rfl]
  have habs : ∀ x, hasArg g x = false → x ≠ data.argumentId → hasArg g1 x = false := by
    intro x hx hne
    rw [hg1, hx]
    simp
    intro hcontra
    exact hne (by rw [← hcontra]; rfl)
  obtain ⟨s1args, s1err, s1cond⟩ :=
    addRelList_spec addSupportsRelationship supports_ok_args supports_ok_of
      supports_error_of a.supports g1 a.id
  obtain ⟨s1all, s1ex⟩ := s1cond hg1s
  rcases h1 : addRelList addSupportsRelationship g1 a.id a.supports with ⟨g2, o2⟩
  have hg2args : g2.args = g1.args := by
    have h := s1args; rw [h1] at h; exact h
  have hg2has : ∀ x, hasArg g2 x = hasArg g1 x := by
    intro x; unfold hasArg; rw [hg2args]
  obtain ⟨s2args, s2err, s2cond⟩ :=
    addRelList_spec addContradictsRelationship contradicts_ok_args contradicts_ok_of
      contradicts_error_of a.contradicts g2 a.id
  obtain ⟨s2all, s2ex⟩ := s2cond (by rw [hg2has]; exact hg1s)
  constructor
  · intro hall
    have hsup : ∀ x ∈ a.supports, hasArg g1 x = true := by
      intro x hx
      exact hpres x (hall x (by unfold refsOfData; simp [← hadef, hx]))
    have ho2 : o2 = none := by
      have h := s1all hsup; rw [h1] at h; exact h
    subst ho2
    dsimp only
    have hcon : ∀ x ∈ a.contradicts, hasArg g2 x = true := by
      intro x hx
      rw [hg2has]
      exact hpres x (hall x (by unfold refsOfData; simp [← hadef, hx]))
    rcases h2 : addRelList addContradictsRelationship g2 a.id a.contradicts with ⟨g3, o3⟩
    have ho3 : o3 = none := by
      have h := s2all hcon; rw [h2] at h; exact h
    subst ho3
    dsimp only
    have hg3has : ∀ x, hasArg g3 x = hasArg g2 x := by
      intro x
      have h := s2args; rw [h2] at h
      unfold hasArg; rw [h]
    rcases hrt : a.respondsTo with _ | r0
    · rfl
    · dsimp only
      have hr0 : hasArg g3 r0 = true := by
        rw [hg3has, hg2has]
        exact hpres r0 (hall r0 (by unfold refsOfData; simp [← hadef, hrt]))
      have hcond : (hasArg g3 a.id && hasArg g3 r0) = true := by
        rw [hr0, hg3has, hg2has, hg1s]
        rfl
      have h4 : addRespondsToRelationship g3 a.id r0 =
          .ok (updateAdj g3 a.id (fun rec => { rec with respondsTo := some r0 })) := by
        unfold addRespondsToRelationship; rw [if_pos hcond]
      rw [h4]
  · rintro ⟨r, hrmem, hrabs, hrne⟩
    have hrg1 : hasArg g1 r = false := habs r hrabs hrne
    have hrmem2 : r ∈ a.supports ∨ r ∈ a.contradicts ∨
        r ∈ (match a.respondsTo with | some r0 => [r0] | none => []) := by
      unfold refsOfData at hrmem
      rw [← hadef] at hrmem
      simpa [List.mem_append, or_assoc] using hrmem
    cases o2 with
    | some e =>
      have he : e = .unknownRef "Both arguments must exist in the graph" := by
        apply s1err; rw [h1]
      dsimp only
      rw [he]
    | none =>
      dsimp only
      rcases hrmem2 with hrs | hrc | hrr
      · exfalso
        have h := s1ex ⟨r, hrs, hrg1⟩
        rw [h1] at h; cases h
      · rcases h2 : addRelList addContradictsRelationship g2 a.id a.contradicts with ⟨g3, o3⟩
        cases o3 with
        | some e =>
          have he : e = .unknownRef "Both arguments must exist in the graph" := by
            apply s2err; rw [h2]
          dsimp only
          rw [he]
        | none =>
          exfalso
          have h := s2ex ⟨r, hrc, by rw [hg2has]; exact hrg1⟩
          rw [h2] at h; cases h
      · rcases h2 : addRelList addContradictsRelationship g2 a.id a.contradicts with ⟨g3, o3⟩
        cases o3 with
        | some e =>
          have he : e = .unknownRef "Both arguments must exist in the graph" := by
            apply s2err; rw [h2]
          dsimp only
          rw [he]
        | none =>
          dsimp only
          have hg3has : ∀ x, hasArg g3 x = hasArg g2 x := by
            intro x
            have h := s2args; rw [h2] at h
            unfold hasArg; rw [h]
          rcases hrt : a.respondsTo with _ | r0
          · rw [hrt] at hrr; cases hrr
          · dsimp only
            rw [hrt] at hrr
            have hrr0 : r = r0 := List.mem_singleton.mp hrr
            rw [hrr0] at hrg1
            have hcond : (hasArg g3 a.id && hasArg g3 r0) = false := by
              simp only [hg3has, hg2has]
              rw [hrg1]
              simp
            have h5 : addRespondsToRelationship g3 a.id r0 =
                .error (.unknownRef "Both arguments must exist in the graph") := by
              unfold addRespondsToRelationship
              rw [if_neg (by simp [hcond])]
            rw [h5]

/-- C2 witness: in the one-argument graph holding "a", inserting "b" whose
supports references the previously inserted "a" succeeds. -/
theorem c2_reference_check_witness :
    validateArgument dB = none ∧ hasArg gA "b" = false ∧
    (addArgument gA dB).2 = .ok (buildArgument dB) :=
  ⟨by decide, by decide,
    (c2_reference_check gA dB (by decide) (by decide)).1 (by decide)⟩

/-! ## Lemmas describing the partially mutated state (for C1) -/

theorem hasArg_insert (g : ArgumentGraph) (a : Argument) (x : String) :
    hasArg ⟨g.args ++ [a], g.adj ++ [(a.id, ⟨[], [], none⟩)]⟩ x
      = (hasArg g x || decide (a.id = x)) := by
  unfold hasArg
  simp [List.any_append]

theorem hasArg_insert_absent (g : ArgumentGraph) (a : Argument) (x : String)
    (hx : hasArg g x = false) (hne : x ≠ a.id) :
    hasArg ⟨g.args ++ [a], g.adj ++ [(a.id, ⟨[], [], none⟩)]⟩ x = false := by
  rw [hasArg_insert, hx]
  simp
  intro hc
  exact hne hc.symm

theorem hasArg_insert_present (g : ArgumentGraph) (a : Argument) (x : String)
    (hx : hasArg g x = true ∨ x = a.id) :
    hasArg ⟨g.args ++ [a], g.adj ++ [(a.id, ⟨[], [], none⟩)]⟩ x = true := by
  rw [hasArg_insert]
  rcases hx with hx | hx
  · simp [hx]
  · subst hx; simp

theorem updateAdj_append_nil (g : ArgumentGraph) (s : String) :
    updateAdj g s (fun rec => { rec with supports := rec.supports ++ [] }) = g := by
  unfold updateAdj
  rcases g with ⟨args, adj⟩
  congr 1
  have h : ∀ p : String × RelRecord,
      (if p.1 = s then (p.1, { p.2 with supports := p.2.supports ++ ([] : List String) })
       else p) = p := by
    intro p
    rcases p with ⟨k, ⟨sup, con, rt⟩⟩
    simp
  rw [List.map_congr_left (fun p _ => h p)]
  exact List.map_id' adj

theorem updateAdj_updateAdj (g : ArgumentGraph) (s : String) (f f2 : RelRecord → RelRecord) :
    updateAdj (updateAdj g s f) s f2 = updateAdj g s (fun rec => f2 (f rec)) := by
  unfold updateAdj
  simp only [List.map_map]
  congr 1
  congr 1
  funext p
  rcases p with ⟨k, rec⟩
  by_cases hk : k = s <;> simp [Function.comp, hk]

theorem updateAdj_congr (g : ArgumentGraph) (s : String) (f1 f2 : RelRecord → RelRecord)
    (h : ∀ rec, f1 rec = f2 rec) : updateAdj g s f1 = updateAdj g s f2 := by
  unfold updateAdj
  congr 1
  congr 1
  funext p
  by_cases hp : p.1 = s <;> simp [hp, h]

/-- Splitting a supports loop at a prefix whose references all resolve:
the prefix is pushed onto the record of the supporter and the loop
continues on the rest. -/
theorem addRelList_supports_append (l1 l2 : List String) (g : ArgumentGraph) (s : String)
    (h : ∀ x ∈ l1, (hasArg g s && hasArg g x) = true) :
    addRelList addSupportsRelationship g s (l1 ++ l2) =
      addRelList addSupportsRelationship
        (updateAdj g s (fun rec => { rec with supports := rec.supports ++ l1 })) s l2 := by
  induction l1 generalizing g with
  | nil => rw [List.nil_append, updateAdj_append_nil]
  | cons x xs ih =>
    have hx := h x (List.mem_cons_self x xs)
    have hstep : addSupportsRelationship g s x =
        .ok (updateAdj g s (fun rec => { rec with supports := rec.supports ++ [x] })) := by
      unfold addSupportsRelationship; rw [if_pos hx]
    simp only [List.cons_append, addRelList, hstep, List.append_eq]
    rw [ih (updateAdj g s (fun rec => { rec with supports := rec.supports ++ [x] }))
      (fun y hy => h y (List.mem_cons_of_mem x hy))]
    rw [updateAdj_updateAdj]
    exact congrArg (fun G => addRelList addSupportsRelationship G s l2)
      (updateAdj_congr g s _ _ (fun rec => by rcases rec with ⟨sup, con, rt⟩; simp))

theorem find?_append_none {α : Type} (p : α → Bool) {l1 : List α} (l2 : List α)
    (h : l1.find? p = none) : (l1 ++ l2).find? p = l2.find? p := by
  induction l1 with
  | nil => rfl
  | cons x xs ih =>
    cases hpx : p x with
    | true => simp [List.find?, hpx] at h
    | false =>
      simp only [List.find?, hpx] at h ⊢
      exact ih h

theorem updateAdj_contradicts_append_nil (g : ArgumentGraph) (s : String) :
    updateAdj g s (fun rec => { rec with contradicts := rec.contradicts ++ [] }) = g := by
  unfold updateAdj
  rcases g with ⟨args, adj⟩
  congr 1
  have h : ∀ p : String × RelRecord,
      (if p.1 = s then (p.1, { p.2 with contradicts := p.2.contradicts ++ ([] : List String) })
       else p) = p := by
    intro p
    rcases p with ⟨k, ⟨sup, con, rt⟩⟩
    simp
  rw [List.map_congr_left (fun p _ => h p)]
  exact List.map_id' adj

/-- The contradicts mirror of the supports loop-splitting lemma. -/
theorem addRelList_contradicts_append (l1 l2 : List String) (g : ArgumentGraph) (s : String)
    (h : ∀ x ∈ l1, (hasArg g s && hasArg g x) = true) :
    addRelList addContradictsRelationship g s (l1 ++ l2) =
      addRelList addContradictsRelationship
        (updateAdj g s (fun rec => { rec with contradicts := rec.contradicts ++ l1 })) s l2 := by
  induction l1 generalizing g with
  | nil => rw [List.nil_append, updateAdj_contradicts_append_nil]
  | cons x xs ih =>
    have hx := h x (List.mem_cons_self x xs)
    have hstep : addContradictsRelationship g s x =
        .ok (updateAdj g s (fun rec => { rec with contradicts := rec.contradicts ++ [x] })) := by
      unfold addContradictsRelationship; rw [if_pos hx]
    simp only [List.cons_append, addRelList, hstep, List.append_eq]
    rw [ih (updateAdj g s (fun rec => { rec with contradicts := rec.contradicts ++ [x] }))
      (fun y hy => h y (List.mem_cons_of_mem x hy))]
    rw [updateAdj_updateAdj]
    exact congrArg (fun G => addRelList addContradictsRelationship G s l2)
      (updateAdj_congr g s _ _ (fun rec => by rcases rec with ⟨sup, con, rt⟩; simp))

/-- A supports loop whose references all resolve pushes all of them. -/
theorem addRelList_supports_all (l : List String) (g : ArgumentGraph) (s : String)
    (h : ∀ x ∈ l, (hasArg g s && hasArg g x) = true) :
    addRelList addSupportsRelationship g s l =
      (updateAdj g s (fun rec => { rec with supports := rec.supports ++ l }), none) := by
  have h2 := addRelList_supports_append l [] g s h
  rw [List.append_nil] at h2
  rw [h2]
  rfl

/-- A contradicts loop whose references all resolve pushes all of them. -/
theorem addRelList_contradicts_all (l : List String) (g : ArgumentGraph) (s : String)
    (h : ∀ x ∈ l, (hasArg g s && hasArg g x) = true) :
    addRelList addContradictsRelationship g s l =
      (updateAdj g s (fun rec => { rec with contradicts := rec.contradicts ++ l }), none) := by
  have h2 := addRelList_contradicts_append l [] g s h
  rw [List.append_nil] at h2
  rw [h2]
  rfl

/-- The relationship record of a freshly inserted argument after in-place
updates, when no stale record with the same key pre-exists. -/
theorem lookupRel_insert (g : ArgumentGraph) (a : Argument) (f : RelRecord → RelRecord)
    (hadj : lookupRel g a.id = none) :
    lookupRel (updateAdj ⟨g.args ++ [a], g.adj ++ [(a.id, ⟨[], [], none⟩)]⟩ a.id f) a.id
      = some (f ⟨[], [], none⟩) := by
  have hkeys : ∀ p ∈ g.adj, ¬((p.1 = a.id) = true) := by
    intro p hp
    have h0 : g.adj.find? (fun q => q.1 = a.id) = none := by
      unfold lookupRel at hadj
      exact Option.map_eq_none.mp hadj
    have := List.find?_eq_none.mp h0 p hp
    simpa using this
  unfold lookupRel updateAdj
  dsimp only
  rw [List.map_append]
  rw [find?_append_none]
  · simp
  · apply List.find?_eq_none.mpr
    intro q hq
    obtain ⟨p, hp, hpq⟩ := List.mem_map.mp hq
    have hkey : q.1 = p.1 := by
      rw [← hpq]
      by_cases hps : p.1 = a.id <;> simp [hps]
    simp only [hkey]
    simpa using hkeys p hp

/-- C1 (amended): for a valid argument with a fresh id, a reference to an
absent id in the supports list, in the contradicts list, or in respondsTo
makes addArgument fail with UnknownReferenceError, but the graph is NOT
left unchanged: in every case the new argument stays in the id-to-Argument
map and its relationship record exists, and the edges processed before the
failing reference remain registered — the supports entries before a failing
supports reference; all supports plus the contradicts entries before a
failing contradicts reference; all supports and all contradicts when the
respondsTo reference fails.  Only the failing edge and later ones are
absent. -/
theorem c1_addArgument_partial_mutation (g : ArgumentGraph) (data : ArgData)
    (hv : validateArgument data = none)
    (hd : hasArg g data.argumentId = false)
    (hadj : lookupRel g data.argumentId = none) :
    (∀ s1 rest r, (buildArgument data).supports = s1 ++ r :: rest →
      (∀ x ∈ s1, hasArg g x = true ∨ x = data.argumentId) →
      hasArg g r = false → r ≠ data.argumentId →
      (addArgument g data).2 =
        .error (.unknownRef "Both arguments must exist in the graph") ∧
      (addArgument g data).1.args = g.args ++ [buildArgument data] ∧
      lookupRel (addArgument g data).1 data.argumentId = some ⟨s1, [], none⟩) ∧
    (∀ c1 rest r,
      (∀ x ∈ (buildArgument data).supports, hasArg g x = true ∨ x = data.argumentId) →
      (buildArgument data).contradicts = c1 ++ r :: rest →
      (∀ x ∈ c1, hasArg g x = true ∨ x = data.argumentId) →
      hasArg g r = false → r ≠ data.argumentId →
      (addArgument g data).2 =
        .error (.unknownRef "Both arguments must exist in the graph") ∧
      (addArgument g data).1.args = g.args ++ [buildArgument data] ∧
      lookupRel (addArgument g data).1 data.argumentId =
        some ⟨(buildArgument data).supports, c1, none⟩) ∧
    (∀ r,
      (∀ x ∈ (buildArgument data).supports, hasArg g x = true ∨ x = data.argumentId) →
      (∀ x ∈ (buildArgument data).contradicts, hasArg g x = true ∨ x = data.argumentId) →
      (buildArgument data).respondsTo = some r →
      hasArg g r = false → r ≠ data.argumentId →
      (addArgument g data).2 =
        .error (.unknownRef "Both arguments must exist in the graph") ∧
      (addArgument g data).1.args = g.args ++ [buildArgument data] ∧
      lookupRel (addArgument g data).1 data.argumentId =
        some ⟨(buildArgument data).supports, (buildArgument data).contradicts, none⟩) := by
  have hmk : mkArgument data = .ok (buildArgument data) := by
    unfold mkArgument; rw [hv]
  have hnot : ¬(hasArg g (buildArgument data).id = true) := by
    rw [show hasArg g (buildArgument data).id = false from hd]; simp
  have haid : (buildArgument data).id = data.argumentId := rfl
  unfold addArgument
  rw [hmk]
  dsimp only
  rw [if_neg hnot]
  refine ⟨?_, ?_, ?_⟩
  · -- a failing reference inside the supports list
    intro s1 rest r hsup hs1 hr hrne
    set a := buildArgument data with hadef
    rw [hsup]
    set g1 : ArgumentGraph := ⟨g.args ++ [a], g.adj ++ [(a.id, ⟨[], [], none⟩)]⟩ with hg1def
    have hg1s : hasArg g1 a.id = true := by
      rw [hg1def]; exact hasArg_insert_present g a a.id (Or.inr rfl)
    have hpre : ∀ x ∈ s1, (hasArg g1 a.id && hasArg g1 x) = true := by
      intro x hx
      rw [hg1s]
      rw [hg1def]
      rw [hasArg_insert_present g a x (by
        rcases hs1 x hx with h | h
        · exact Or.inl h
        · exact Or.inr (by rw [h, haid]))]
      rfl
    rw [addRelList_supports_append s1 (r :: rest) g1 a.id hpre]
    set gP : ArgumentGraph :=
      updateAdj g1 a.id (fun rec => { rec with supports := rec.supports ++ s1 }) with hgPdef
    have hrP : hasArg gP r = false := by
      rw [hgPdef]
      rw [hasArg_updateAdj]
      rw [hg1def]
      exact hasArg_insert_absent g a r hr (by rw [haid]; exact hrne)
    have hstage : addSupportsRelationship gP a.id r =
        .error (.unknownRef "Both arguments must exist in the graph") := by
      apply supports_error_of
      rw [hrP]
      simp
    have hres : addRelList addSupportsRelationship gP a.id (r :: rest) =
        (gP, some (.unknownRef "Both arguments must exist in the graph")) := by
      simp [addRelList, hstage]
    rw [hres]
    dsimp only
    refine ⟨rfl, rfl, ?_⟩
    show lookupRel gP data.argumentId = some ⟨s1, [], none⟩
    rw [hgPdef, hg1def]
    exact lookupRel_insert g a _ hadj
  · -- a failing reference inside the contradicts list
    intro c1 rest r hsupall hcon hc1 hr hrne
    set a := buildArgument data with hadef
    set g1 : ArgumentGraph := ⟨g.args ++ [a], g.adj ++ [(a.id, ⟨[], [], none⟩)]⟩ with hg1def
    have hg1s : hasArg g1 a.id = true := by
      rw [hg1def]; exact hasArg_insert_present g a a.id (Or.inr rfl)
    have hpreS : ∀ x ∈ a.supports, (hasArg g1 a.id && hasArg g1 x) = true := by
      intro x hx
      rw [hg1s]
      rw [hg1def]
      rw [hasArg_insert_present g a x (by
        rcases hsupall x hx with h | h
        · exact Or.inl h
        · exact Or.inr (by rw [h, haid]))]
      rfl
    rw [addRelList_supports_all a.supports g1 a.id hpreS]
    dsimp only
    rw [hcon]
    set gS : ArgumentGraph :=
      updateAdj g1 a.id (fun rec => { rec with supports := rec.supports ++ a.supports })
      with hgSdef
    have hpreC : ∀ x ∈ c1, (hasArg gS a.id && hasArg gS x) = true := by
      intro x hx
      show (hasArg g1 a.id && hasArg g1 x) = true
      rw [hg1s]
      rw [hg1def]
      rw [hasArg_insert_present g a x (by
        rcases hc1 x hx with h | h
        · exact Or.inl h
        · exact Or.inr (by rw [h, haid]))]
      rfl
    rw [addRelList_contradicts_append c1 (r :: rest) gS a.id hpreC]
    set gSC : ArgumentGraph :=
      updateAdj gS a.id (fun rec => { rec with contradicts := rec.contradicts ++ c1 })
      with hgSCdef
    have hrSC : hasArg gSC r = false := by
      show hasArg g1 r = false
      rw [hg1def]
      exact hasArg_insert_absent g a r hr (by rw [haid]; exact hrne)
    have hstage : addContradictsRelationship gSC a.id r =
        .error (.unknownRef "Both arguments must exist in the graph") := by
      apply contradicts_error_of
      rw [hrSC]
      simp
    have hres : addRelList addContradictsRelationship gSC a.id (r :: rest) =
        (gSC, some (.unknownRef "Both arguments must exist in the graph")) := by
      simp [addRelList, hstage]
    rw [hres]
    dsimp only
    refine ⟨rfl, rfl, ?_⟩
    show lookupRel gSC data.argumentId = some ⟨a.supports, c1, none⟩
    rw [hgSCdef, hgSdef]
    rw [updateAdj_updateAdj]
    rw [hg1def]
    exact lookupRel_insert g a _ hadj
  · -- a failing respondsTo reference
    intro r hsupall hconall hrt hr hrne
    set a := buildArgument data with hadef
    set g1 : ArgumentGraph := ⟨g.args ++ [a], g.adj ++ [(a.id, ⟨[], [], none⟩)]⟩ with hg1def
    have hg1s : hasArg g1 a.id = true := by
      rw [hg1def]; exact hasArg_insert_present g a a.id (Or.inr rfl)
    have hpreS : ∀ x ∈ a.supports, (hasArg g1 a.id && hasArg g1 x) = true := by
      intro x hx
      rw [hg1s]
      rw [hg1def]
      rw [hasArg_insert_present g a x (by
        rcases hsupall x hx with h | h
        · exact Or.inl h
        · exact Or.inr (by rw [h, haid]))]
      rfl
    rw [addRelList_supports_all a.supports g1 a.id hpreS]
    dsimp only
    set gS : ArgumentGraph :=
      updateAdj g1 a.id (fun rec => { rec with supports := rec.supports ++ a.supports })
      with hgSdef
    have hpreC : ∀ x ∈ a.contradicts, (hasArg gS a.id && hasArg gS x) = true := by
      intro x hx
      show (hasArg g1 a.id && hasArg g1 x) = true
      rw [hg1s]
      rw [hg1def]
      rw [hasArg_insert_present g a x (by
        rcases hconall x hx with h | h
        · exact Or.inl h
        · exact Or.inr (by rw [h, haid]))]
      rfl
    rw [addRelList_contradicts_all a.contradicts gS a.id hpreC]
    dsimp only
    rw [hrt]
    dsimp only
    set gSC : ArgumentGraph :=
      updateAdj gS a.id (fun rec => { rec with contradicts := rec.contradicts ++ a.contradicts })
      with hgSCdef
    have hrSC : hasArg gSC r = false := by
      show hasArg g1 r = false
      rw [hg1def]
      exact hasArg_insert_absent g a r hr (by rw [haid]; exact hrne)
    have hcond : (hasArg gSC a.id && hasArg gSC r) = false := by
      rw [hrSC]
      simp
    have h5 : addRespondsToRelationship gSC a.id r =
        .error (.unknownRef "Both arguments must exist in the graph") := by
      unfold addRespondsToRelationship
      rw [if_neg (by simp [hcond])]
    rw [h5]
    dsimp only
    refine ⟨rfl, rfl, ?_⟩
    show lookupRel gSC data.argumentId = some ⟨a.supports, a.contradicts, none⟩
    rw [hgSCdef, hgSdef]
    rw [updateAdj_updateAdj]
    rw [hg1def]
    exact lookupRel_insert g a _ hadj

/-- C1 witness: the three concrete failure scenarios — a missing supports
reference, a missing contradicts reference and a missing respondsTo
reference — each through the amended theorem, each leaving the new
argument and its already-registered edges in the graph. -/
theorem c1_addArgument_partial_mutation_witness :
    ((addArgument gA dBbad).2 =
        .error (.unknownRef "Both arguments must exist in the graph") ∧
      (addArgument gA dBbad).1.args = gA.args ++ [buildArgument dBbad] ∧
      lookupRel (addArgument gA dBbad).1 "b" = some ⟨["a"], [], none⟩) ∧
    ((addArgument gA dCbad).2 =
        .error (.unknownRef "Both arguments must exist in the graph") ∧
      (addArgument gA dCbad).1.args = gA.args ++ [buildArgument dCbad] ∧
      lookupRel (addArgument gA dCbad).1 "b" = some ⟨[], ["a"], none⟩) ∧
    ((addArgument gA dRbad).2 =
        .error (.unknownRef "Both arguments must exist in the graph") ∧
      (addArgument gA dRbad).1.args = gA.args ++ [buildArgument dRbad] ∧
      lookupRel (addArgument gA dRbad).1 "b" = some ⟨[], [], none⟩) :=
  ⟨(c1_addArgument_partial_mutation gA dBbad (by decide) (by decide) (by decide)).1
      ["a"] [] "zz" (by decide) (by decide) (by decide) (by decide),
   (c1_addArgument_partial_mutation gA dCbad (by decide) (by decide) (by decide)).2.1
      ["a"] [] "zz" (by decide) (by decide) (by decide) (by decide) (by decide),
   (c1_addArgument_partial_mutation gA dRbad (by decide) (by decide) (by decide)).2.2
      "zz" (by decide) (by decide) (by decide) (by decide) (by decide)⟩

/-! ## Sortedness of the candidate list (for C8) -/

theorem potDescend_of_gt {x y : Candidate}
    (h : jgtVB x.potential y.potential = true) : potDescend x y := by
  intro px py hx hy
  unfold jgtVB at h
  rw [hx, hy] at h
  simp at h
  linarith

theorem potDescend_of_not_gt {x y : Candidate}
    (h : jgtVB x.potential y.potential = false) : potDescend y x := by
  intro py px hy hx
  unfold jgtVB at h
  rw [hx, hy] at h
  simp at h
  exact h

theorem potDescend_trans_of_gt {x y z : Candidate}
    (hxy : jgtVB x.potential y.potential = true)
    (hyz : potDescend y z) : potDescend x z := by
  intro px pz hx hz
  unfold jgtVB at hxy
  rcases hy : y.potential with _ | py
  · rw [hx, hy] at hxy; simp at hxy
  · rw [hx, hy] at hxy
    simp at hxy
    have := hyz py pz hy hz
    linarith

theorem mem_insertDesc {x z : Candidate} : ∀ {l : List Candidate},
    z ∈ insertDesc x l ↔ z = x ∨ z ∈ l := by
  intro l
  induction l with
  | nil => simp [insertDesc]
  | cons y ys ih =>
    unfold insertDesc
    split
    · simp [List.mem_cons]
    · rw [List.mem_cons, ih, List.mem_cons]
      tauto

theorem pairwise_insertDesc {x : Candidate} : ∀ {l : List Candidate},
    l.Pairwise potDescend → (insertDesc x l).Pairwise potDescend := by
  intro l
  induction l with
  | nil => intro _; simp [insertDesc]
  | cons y ys ih =>
    intro h
    unfold insertDesc
    split
    · next hgt =>
      rw [List.pairwise_cons]
      refine ⟨?_, h⟩
      intro z hz
      rcases List.mem_cons.mp hz with hz | hz
      · subst hz; exact potDescend_of_gt hgt
      · exact potDescend_trans_of_gt hgt ((List.pairwise_cons.mp h).1 z hz)
    · next hgt =>
      have hgt2 : jgtVB x.potential y.potential = false := by
        revert hgt; cases jgtVB x.potential y.potential <;> simp
      rw [List.pairwise_cons] at h
      rw [List.pairwise_cons]
      refine ⟨?_, ih h.2⟩
      intro z hz
      rcases mem_insertDesc.mp hz with hz | hz
      · subst hz; exact potDescend_of_not_gt hgt2
      · exact h.1 z hz

theorem pairwise_sortFold : ∀ (l acc : List Candidate),
    acc.Pairwise potDescend →
    (l.foldl (fun acc x => insertDesc x acc) acc).Pairwise potDescend := by
  intro l
  induction l with
  | nil => intro acc h; exact h
  | cons x xs ih => intro acc h; exact ih _ (pairwise_insertDesc h)

theorem mem_sortFold : ∀ (l acc : List Candidate) (z : Candidate),
    (z ∈ l.foldl (fun acc x => insertDesc x acc) acc ↔ z ∈ acc ∨ z ∈ l) := by
  intro l
  induction l with
  | nil => intro acc z; simp
  | cons x xs ih =>
    intro acc z
    simp only [List.foldl_cons]
    rw [ih, mem_insertDesc, List.mem_cons]
    tauto

theorem pairwise_sortByPotentialDesc (l : List Candidate) :
    (sortByPotentialDesc l).Pairwise potDescend :=
  pairwise_sortFold l [] List.Pairwise.nil

theorem mem_sortByPotentialDesc {l : List Candidate} {z : Candidate} :
    z ∈ sortByPotentialDesc l ↔ z ∈ l := by
  unfold sortByPotentialDesc
  rw [mem_sortFold]
  simp

theorem mkRat_3_10 : (mkRat 3 10 : ℚ) = 3/10 := by
  rw [Rat.mkRat_eq_div]; norm_num

theorem mkRat_4_10 : (mkRat 4 10 : ℚ) = 4/10 := by
  rw [Rat.mkRat_eq_div]; norm_num

theorem mkRat_15_100 : (mkRat 15 100 : ℚ) = 15/100 := by
  rw [Rat.mkRat_eq_div]; norm_num

/-- The potential of a pair with numeric confidences, written as a plain
rational formula: the SUM of the two confidences (not the average) enters
with weight 0.15, and likewise the sum of the two quality ratios. -/
theorem calcPotential_eq (t a : Argument) (ct ca : ℚ)
    (hct : t.confidence = some ct) (hca : a.confidence = some ca) :
    calculateSynthesisPotential t a =
      some (min (((findSharedConcepts t.premises a.premises).length : ℚ) * (3/10) +
        findResolvableDifferences t a * (4/10) + (ct + ca) * (15/100) +
        (qualityDelta t + qualityDelta a) * (15/100)) 1) := by
  unfold calculateSynthesisPotential
  rw [hct, hca]
  simp only [jadd, jmul, jmin, qadd_eq, qmul_eq, mkRat_3_10, mkRat_4_10, mkRat_15_100]
  congr 1
  congr 1
  ring

/-- C8 (amended): findSynthesisCandidates returns its candidates sorted
descending by potential, and every candidate scores a considered
thesis/antithesis pair with
potential = sharedConceptCount*0.3 + resolvableDifferences*0.4 +
(confidence1 + confidence2)*0.15 + (qualityDelta1 + qualityDelta2)*0.15,
capped at 1 — the SUMS over the pair, not the averages of the original
claim — where resolvableDifferences and the per-argument quality delta
(|strengths|−|weaknesses|)/(|strengths|+|weaknesses|+1) are as in the
source. -/
theorem c8_potential_formula (e : DialecticalEngine) :
    (findSynthesisCandidates e).Pairwise potDescend ∧
    (∀ c ∈ findSynthesisCandidates e, ∃ t u, t ∈ e.graph.args ∧ u ∈ e.graph.args ∧
      t.type = "thesis" ∧ u.type = "antithesis" ∧
      c.thesis = t.id ∧ c.antithesis = u.id ∧
      ∀ ct ca, t.confidence = some ct → u.confidence = some ca →
        c.potential = some (min
          (((findSharedConcepts t.premises u.premises).length : ℚ) * (3/10) +
           findResolvableDifferences t u * (4/10) + (ct + ca) * (15/100) +
           (qualityDelta t + qualityDelta u) * (15/100)) 1)) := by
  constructor
  · unfold findSynthesisCandidates
    exact pairwise_sortByPotentialDesc _
  · intro c hc
    unfold findSynthesisCandidates at hc
    rw [mem_sortByPotentialDesc] at hc
    simp only [List.mem_flatMap, List.mem_filterMap] at hc
    obtain ⟨th, hth, anti, hanti, hf⟩ := hc
    have hth2 := List.mem_filter.mp hth
    have hanti2 := List.mem_filter.mp (List.mem_filter.mp hanti).1
    refine ⟨th, anti, hth2.1, hanti2.1, by simpa using hth2.2, by simpa using hanti2.2, ?_⟩
    split at hf
    · cases hf
    · injection hf with hf
      rw [← hf]
      refine ⟨rfl, rfl, ?_⟩
      intro ct ca hct hca
      exact calcPotential_eq th anti ct ca hct hca

/-- C8 witness: the single candidate of the concrete engine `e8`, with its
potential 0.62 produced by the sum-based formula. -/
theorem c8_potential_formula_witness :
    cand8 ∈ findSynthesisCandidates e8 ∧
    (findSynthesisCandidates e8).Pairwise potDescend ∧
    (∃ t u, t ∈ e8.graph.args ∧ u ∈ e8.graph.args ∧
      t.type = "thesis" ∧ u.type = "antithesis" ∧
      cand8.thesis = t.id ∧ cand8.antithesis = u.id ∧
      ∀ ct ca, t.confidence = some ct → u.confidence = some ca →
        cand8.potential = some (min
          (((findSharedConcepts t.premises u.premises).length : ℚ) * (3/10) +
           findResolvableDifferences t u * (4/10) + (ct + ca) * (15/100) +
           (qualityDelta t + qualityDelta u) * (15/100)) 1)) :=
  ⟨by decide, (c8_potential_formula e8).1, (c8_potential_formula e8).2 cand8 (by decide)⟩
